import Mathlib

/-!
# Verification of the solar-system orbital propagator and geometry generator

Shallow embedding of `src/main.py` (Python/ursina solar-system simulation).
Python floats are modelled as real numbers `ℝ`; the calendar arithmetic of
`julian_date` / `jd_to_datetime` (which is exact on the checked range) is
modelled over `ℚ`; Python `int()` truncation and `//` floor division are
modelled exactly.  `ursina.Vec3` is modelled as a record of three reals.

Conventions used throughout:
* a Python attribute read `self.orbit_parent.position` is passed in as an
  explicit `parentPos` argument (the parent entity is shared mutable state in
  the source; each call site reads its current position);
* Python truthiness of `orbit_period_days` / `rotation_period_days`
  (`None` and `0` are falsy) is modelled by matching on `Option ℝ` and
  testing the value against `0`;
* a Python statement that can raise (`ZeroDivisionError` in the mesh
  builders) is modelled with `Option`, `none` standing for the raise.
-/

open scoped Classical

noncomputable section

/-- World units per astronomical unit (`AU = 5.0` in the source). -/
def AU : ℝ := 5

/-- `DEG_PER_TURN = 360.0`. -/
def DEG_PER_TURN : ℝ := 360

/-- `TAU = math.tau = 2π`. -/
def TAU : ℝ := 2 * Real.pi

/-- `CAMERA_RADIUS = 0.05`. -/
def CAMERA_RADIUS : ℝ := 0.05

/-- `COLLISION_SPEED_MIN = 2.5`. -/
def COLLISION_SPEED_MIN : ℝ := 2.5

/-- `math.radians`: degrees to radians. -/
def radians (d : ℝ) : ℝ := d * Real.pi / 180

/-- Python float `%` for a positive right operand: `x - y * ⌊x / y⌋`
(the result carries the sign of the divisor). -/
def fmodPos (x y : ℝ) : ℝ := x - y * ⌊x / y⌋

/-- `ursina.Vec3`: a triple of floats. -/
@[ext]
structure Vec3 where
  x : ℝ
  y : ℝ
  z : ℝ

instance : Add Vec3 := ⟨fun u v => ⟨u.x + v.x, u.y + v.y, u.z + v.z⟩⟩

instance : Sub Vec3 := ⟨fun u v => ⟨u.x - v.x, u.y - v.y, u.z - v.z⟩⟩

instance : HMul Vec3 ℝ Vec3 := ⟨fun v t => ⟨v.x * t, v.y * t, v.z * t⟩⟩

theorem Vec3.add_def (u v : Vec3) : u + v = ⟨u.x + v.x, u.y + v.y, u.z + v.z⟩ := rfl

theorem Vec3.sub_def (u v : Vec3) : u - v = ⟨u.x - v.x, u.y - v.y, u.z - v.z⟩ := rfl

theorem Vec3.mul_def (v : Vec3) (t : ℝ) : v * t = ⟨v.x * t, v.y * t, v.z * t⟩ := rfl

/-- `Vec3.length()`: Euclidean norm. -/
def Vec3.length (v : Vec3) : ℝ := Real.sqrt (v.x ^ 2 + v.y ^ 2 + v.z ^ 2)

/-- `Vec3.normalized()`: componentwise division by the length. -/
def Vec3.normalized (v : Vec3) : Vec3 :=
  ⟨v.x / v.length, v.y / v.length, v.z / v.length⟩

/-- One orbital-element record of the source (`elements=` dictionaries):
six base elements each paired with a secular rate per Julian century. -/
structure Elements where
  a : ℝ
  a_dot : ℝ
  e : ℝ
  e_dot : ℝ
  i : ℝ
  i_dot : ℝ
  Omega : ℝ
  Omega_dot : ℝ
  w : ℝ
  w_dot : ℝ
  M : ℝ
  M_dot : ℝ

/-- The state of a `Body` entity: exactly the attributes of `Body.__init__`
that the propagation code reads or writes.  The parent entity itself is not
stored (it is shared mutable state in the source); `has_orbit_parent`
records whether `orbit_parent` is `None`, and the parent's current position
is passed to `step` explicitly. -/
structure Body where
  scale_x : ℝ
  has_orbit_parent : Bool
  orbit_radius : ℝ
  orbit_eccentricity : ℝ
  orbit_inclination_deg : ℝ
  orbit_period_days : Option ℝ
  rotation_period_days : Option ℝ
  tidally_locked : Bool
  orbit_angle : ℝ
  spin_angle : ℝ
  elements : Option Elements
  position : Vec3
  rotation_y : ℝ

/-- `Body.__init__` (src/main.py lines 38-73).  `scale_x` is
`radius * visual_scale` (the uniform `Entity` scale); `orbit_radius` is
`orbit_radius_au * AU`, clamped from below to
`orbit_parent.scale_x + scale_x * 1.6` when a parent is given.  The entity
starts at the origin with both phase angles zero.  No validation of any
orbital quantity is performed. -/
def mkBody (radius visual_scale orbit_radius_au orbit_eccentricity
    orbit_inclination_deg : ℝ) (orbit_period_days rotation_period_days : Option ℝ)
    (orbit_parent : Option Body) (tidally_locked : Bool)
    (elements : Option Elements) : Body where
  scale_x := radius * visual_scale
  has_orbit_parent := orbit_parent.isSome
  orbit_radius :=
    match orbit_parent with
    | some parent => max (orbit_radius_au * AU) (parent.scale_x + radius * visual_scale * 1.6)
    | none => orbit_radius_au * AU
  orbit_eccentricity := orbit_eccentricity
  orbit_inclination_deg := orbit_inclination_deg
  orbit_period_days := orbit_period_days
  rotation_period_days := rotation_period_days
  tidally_locked := tidally_locked
  orbit_angle := 0
  spin_angle := 0
  elements := elements
  position := ⟨0, 0, 0⟩
  rotation_y := 0

/-- The fixed-iteration Newton–Raphson Kepler solve:
`E₀ = M`, `E ← E − (E − e·sin E − M) / (1 − e·cos E)`. -/
def keplerIter (e M : ℝ) : ℕ → ℝ
  | 0 => M
  | n + 1 =>
    let E := keplerIter e M n
    E - (E - e * Real.sin E - M) / (1 - e * Real.cos E)

/-- The world position computed by `update_orbit_from_elements` (src/main.py
lines 193-220): linear secular extrapolation of the six elements at Julian
centuries `T` since J2000.0, mean anomaly reduced modulo `TAU`, 6 Newton
iterations for the eccentric anomaly, perifocal coordinates, the 3-1-3
rotation, the `Vec3(x, z, y)` axis swizzle, and the parent position added.
It reads nothing but the element record, the Julian Date and the parent
position. -/
def elementPosition (el : Elements) (parentPos : Vec3) (jd : ℝ) : Vec3 :=
  let T := (jd - 2451545.0) / 36525.0
  let a := (el.a + el.a_dot * T) * AU
  let e := el.e + el.e_dot * T
  let i := radians (el.i + el.i_dot * T)
  let Omega := radians (el.Omega + el.Omega_dot * T)
  let w := radians (el.w + el.w_dot * T)
  let M := fmodPos (radians (el.M + el.M_dot * T)) TAU
  let E := keplerIter e M 6
  let x_prime := a * (Real.cos E - e)
  let y_prime := a * Real.sqrt (1 - e * e) * Real.sin E
  let cos_O := Real.cos Omega
  let sin_O := Real.sin Omega
  let cos_w := Real.cos w
  let sin_w := Real.sin w
  let cos_i := Real.cos i
  let sin_i := Real.sin i
  let x := (cos_O * cos_w - sin_O * sin_w * cos_i) * x_prime
    + (-cos_O * sin_w - sin_O * cos_w * cos_i) * y_prime
  let y := (sin_O * cos_w + cos_O * sin_w * cos_i) * x_prime
    + (-sin_O * sin_w + cos_O * cos_w * cos_i) * y_prime
  let z := (sin_w * sin_i) * x_prime + (cos_w * sin_i) * y_prime
  parentPos + (⟨x, z, y⟩ : Vec3)

/-- `update_orbit_from_elements(body, jd)`: writes only `body.position`, with
the value `elementPosition`; `parentPos` is `body.orbit_parent.position`.
The `none` branch is never reached in the source (the caller guards on
`body.elements` being truthy; the source would raise a `TypeError` there). -/
def update_orbit_from_elements (body : Body) (parentPos : Vec3) (jd : ℝ) : Body :=
  match body.elements with
  | none => body
  | some el => { body with position := elementPosition el parentPos jd }

/-- The fixed-period branch of `Body.step` (src/main.py lines 87-100):
advance the accumulated orbit-phase angle, solve Kepler's equation with 5
Newton iterations on the angle reduced modulo `TAU`, place the body in the
orbital plane, rotate by the inclination, and add the parent position.
`p` is the (truthy) `orbit_period_days`. -/
def fixedPeriodStep (b : Body) (dt_days : ℝ) (parentPos : Vec3) (p : ℝ) : Body :=
  let orbit_angle := b.orbit_angle + TAU * (dt_days / p)
  let mean_anomaly := fmodPos orbit_angle TAU
  let e := b.orbit_eccentricity
  let E := keplerIter e mean_anomaly 5
  let x := b.orbit_radius * (Real.cos E - e)
  let z := b.orbit_radius * Real.sqrt (1 - e * e) * Real.sin E
  let pos : Vec3 :=
    if b.orbit_inclination_deg ≠ 0 then
      let inc := radians b.orbit_inclination_deg
      ⟨x, z * Real.sin inc, z * Real.cos inc⟩
    else ⟨x, 0, z⟩
  { b with orbit_angle := orbit_angle, position := parentPos + pos }

/-- The rotation part of `Body.step` (src/main.py lines 102-106).  The
tidally-locked branch calls the engine's `look_at`, which only changes the
entity's orientation; no field modelled here is written by it. -/
def spinStep (b : Body) (dt_days : ℝ) : Body :=
  if b.tidally_locked ∧ b.has_orbit_parent then b
  else
    match b.rotation_period_days with
    | some r =>
      if r ≠ 0 then
        let spin_angle := b.spin_angle + DEG_PER_TURN * (dt_days / r)
        { b with spin_angle := spin_angle, rotation_y := spin_angle }
      else b
    | none => b

/-- `Body.step(dt_days, jd)` (src/main.py lines 84-106): dispatch between the
element-based path (elements present, parent present, `jd` supplied), the
fixed-period path (parent present and truthy period), or no orbital motion,
followed by the rotation update. -/
def step (b : Body) (dt_days : ℝ) (jd : Option ℝ) (parentPos : Vec3) : Body :=
  let b1 :=
    match b.elements, b.has_orbit_parent, jd with
    | some _, true, some j => update_orbit_from_elements b parentPos j
    | _, _, _ =>
      match b.has_orbit_parent, b.orbit_period_days with
      | true, some p => if p ≠ 0 then fixedPeriodStep b dt_days parentPos p else b
      | _, _ => b
  spinStep b1 dt_days

end

noncomputable section

/-- `bodies` are stepped once per frame in a loop; a sequence of frames for a
single body is the left fold of `step` over the list of per-frame elapsed
simulated days (`dt_days = time.dt * time_scale`). -/
def stepMany (b : Body) (dts : List ℝ) (jd : Option ℝ) (parentPos : Vec3) : Body :=
  dts.foldl (fun acc dt => step acc dt jd parentPos) b

end

theorem update_orbit_fields (b : Body) (pp : Vec3) (jd : ℝ) :
    (update_orbit_from_elements b pp jd).elements = b.elements ∧
    (update_orbit_from_elements b pp jd).has_orbit_parent = b.has_orbit_parent ∧
    (update_orbit_from_elements b pp jd).orbit_period_days = b.orbit_period_days ∧
    (update_orbit_from_elements b pp jd).orbit_angle = b.orbit_angle := by
  unfold update_orbit_from_elements
  rcases h : b.elements with _ | el <;> simp [h]

theorem spinStep_fields (b : Body) (dt : ℝ) :
    (spinStep b dt).elements = b.elements ∧
    (spinStep b dt).has_orbit_parent = b.has_orbit_parent ∧
    (spinStep b dt).orbit_period_days = b.orbit_period_days ∧
    (spinStep b dt).orbit_angle = b.orbit_angle := by
  unfold spinStep
  split
  · simp
  · cases b.rotation_period_days <;> simp <;> split <;> simp

theorem fixedPeriodStep_fields (b : Body) (dt : ℝ) (pp : Vec3) (p : ℝ) :
    (fixedPeriodStep b dt pp p).elements = b.elements ∧
    (fixedPeriodStep b dt pp p).has_orbit_parent = b.has_orbit_parent ∧
    (fixedPeriodStep b dt pp p).orbit_period_days = b.orbit_period_days ∧
    (fixedPeriodStep b dt pp p).orbit_angle = b.orbit_angle + TAU * (dt / p) := by
  unfold fixedPeriodStep
  simp

theorem step_fields (b : Body) (dt : ℝ) (jd : Option ℝ) (pp : Vec3) :
    (step b dt jd pp).elements = b.elements ∧
    (step b dt jd pp).has_orbit_parent = b.has_orbit_parent ∧
    (step b dt jd pp).orbit_period_days = b.orbit_period_days := by
  unfold step
  refine ⟨?_, ?_, ?_⟩ <;>
  · split
    · rename_i el hp j heq
      simp [(spinStep_fields _ _).1, (spinStep_fields _ _).2.1, (spinStep_fields _ _).2.2.1,
        (update_orbit_fields _ _ _).1, (update_orbit_fields _ _ _).2.1,
        (update_orbit_fields _ _ _).2.2.1]
    · split
      · split <;>
          simp [(spinStep_fields _ _).1, (spinStep_fields _ _).2.1, (spinStep_fields _ _).2.2.1,
            (fixedPeriodStep_fields _ _ _ _).1, (fixedPeriodStep_fields _ _ _ _).2.1,
            (fixedPeriodStep_fields _ _ _ _).2.2.1]
      · simp [(spinStep_fields _ _).1, (spinStep_fields _ _).2.1, (spinStep_fields _ _).2.2.1]

theorem step_orbit_angle (b : Body) (dt : ℝ) (jd : Option ℝ) (pp : Vec3) (p : ℝ)
    (h1 : b.elements = none) (h2 : b.has_orbit_parent = true)
    (h3 : b.orbit_period_days = some p) (hp : p ≠ 0) :
    (step b dt jd pp).orbit_angle = b.orbit_angle + TAU * (dt / p) := by
  unfold step
  rw [(spinStep_fields _ _).2.2.2]
  simp only [h1, h2, h3]
  rw [if_pos hp]
  exact (fixedPeriodStep_fields _ _ _ _).2.2.2

theorem step_orbit_angle_zero_period (b : Body) (dt : ℝ) (jd : Option ℝ) (pp : Vec3)
    (h1 : b.elements = none) (h3 : b.orbit_period_days = some 0) :
    (step b dt jd pp).orbit_angle = b.orbit_angle := by
  unfold step
  rw [(spinStep_fields _ _).2.2.2]
  simp only [h1, h3]
  cases b.has_orbit_parent <;> simp

theorem update_orbit_eq (b : Body) (el : Elements) (pp : Vec3) (jd : ℝ)
    (h : b.elements = some el) :
    update_orbit_from_elements b pp jd = { b with position := elementPosition el pp jd } := by
  unfold update_orbit_from_elements
  rw [h]

/-- C2: ElementSet propagation is idempotent and history-free.  For two body
states carrying the same element record, `update_orbit_from_elements` at the
same Julian Date and the same parent position produces identical world
positions (the computation reads nothing else of the body's state), and
applying it twice is the same as applying it once. -/
theorem c2_elementset_idempotent (b b' : Body) (el : Elements) (pp : Vec3) (jd : ℝ)
    (h : b.elements = some el) (h' : b'.elements = some el) :
    (update_orbit_from_elements b' pp jd).position
      = (update_orbit_from_elements b pp jd).position ∧
    update_orbit_from_elements (update_orbit_from_elements b pp jd) pp jd
      = update_orbit_from_elements b pp jd := by
  have h2 : (update_orbit_from_elements b pp jd).elements = some el := by
    rw [(update_orbit_fields b pp jd).1, h]
  have e1 := update_orbit_eq b el pp jd h
  have e2 := update_orbit_eq b' el pp jd h'
  refine ⟨by rw [e1, e2], ?_⟩
  rw [update_orbit_eq _ el pp jd h2, e1]

/-- Witness for C2 at concrete inputs: two bodies that differ in every
stateful field but share one element record resolve to the same position,
and re-resolving is a no-op. -/
theorem c2_elementset_idempotent_witness :
    ((update_orbit_from_elements
        (mkBody 2 1 9 0.5 10 (some 7) none none false
          (some ⟨1, 0, 0.2, 0, 0, 0, 0, 0, 0, 0, 0, 0⟩))
        ⟨1, 2, 3⟩ 2451545).position
      = (update_orbit_from_elements
        (mkBody 1 1 1 0 0 none none none false
          (some ⟨1, 0, 0.2, 0, 0, 0, 0, 0, 0, 0, 0, 0⟩))
        ⟨1, 2, 3⟩ 2451545).position) ∧
    update_orbit_from_elements
        (update_orbit_from_elements
          (mkBody 1 1 1 0 0 none none none false
            (some ⟨1, 0, 0.2, 0, 0, 0, 0, 0, 0, 0, 0, 0⟩))
          ⟨1, 2, 3⟩ 2451545) ⟨1, 2, 3⟩ 2451545
      = update_orbit_from_elements
          (mkBody 1 1 1 0 0 none none none false
            (some ⟨1, 0, 0.2, 0, 0, 0, 0, 0, 0, 0, 0, 0⟩))
          ⟨1, 2, 3⟩ 2451545 :=
  c2_elementset_idempotent _ _ ⟨1, 0, 0.2, 0, 0, 0, 0, 0, 0, 0, 0, 0⟩ ⟨1, 2, 3⟩ 2451545
    rfl rfl

/-- C9: a `Body` constructed with an orbit parent has, immediately after
construction, an orbit radius of at least
`parent.scale_x + self.scale_x * 1.6` (where `self.scale_x` is
`radius * visual_scale`), because `Body.__init__` clamps `orbit_radius` from
below by exactly that quantity. -/
theorem c9_min_orbit_radius (radius visual_scale orbit_radius_au ecc incl : ℝ)
    (per rot : Option ℝ) (parent : Body) (tl : Bool) (els : Option Elements) :
    parent.scale_x + radius * visual_scale * 1.6 ≤
      (mkBody radius visual_scale orbit_radius_au ecc incl per rot
        (some parent) tl els).orbit_radius := by
  unfold mkBody
  exact le_max_right _ _

/-- C3 counterexample: a `Body` constructed with eccentricity `2 ≥ 1` (and a
parent and a positive period) is not rejected at construction and is not
prevented from being propagated: one `step` call advances its orbit-phase
angle, i.e. the malformed body is scheduled and propagated like any other.
(In the source the same call then crashes inside `math.sqrt(1 - e*e)` after
having already mutated `orbit_angle`; nothing was detected at
construction.) -/
theorem c3_counterexample :
    (step (mkBody 0.18 1 0.387 2 0 (some 10) none
        (some (mkBody 1.8 1 0 0 0 none (some 25) none false none)) false none)
      1 (some 2451545) ⟨0, 0, 0⟩).orbit_angle ≠
    (mkBody 0.18 1 0.387 2 0 (some 10) none
        (some (mkBody 1.8 1 0 0 0 none (some 25) none false none)) false none).orbit_angle := by
  rw [step_orbit_angle _ _ _ _ 10 rfl rfl rfl (by norm_num)]
  simp [mkBody, TAU]
  positivity

/-- C3 (amended): `Body.__init__` performs no validation of orbital data.  A
body constructed with eccentricity ≥ 1 keeps that eccentricity unchanged, and
if it has a parent and a nonzero period it is propagated normally by `step`
(its orbit-phase angle advances by `TAU * dt / p`); nothing prevents it from
being scheduled.  (A period of exactly `0` disables the fixed-period branch
only through Python falsiness of `orbit_period_days`, again without any
detection at construction.) -/
theorem c3_amended (radius visual_scale ora ecc incl dt jd p : ℝ) (parent : Body)
    (pp : Vec3) (he : 1 ≤ ecc) (hp : p ≠ 0) :
    (mkBody radius visual_scale ora ecc incl (some p) none (some parent)
      false none).orbit_eccentricity = ecc ∧
    (step (mkBody radius visual_scale ora ecc incl (some p) none (some parent)
        false none) dt (some jd) pp).orbit_angle
      = (mkBody radius visual_scale ora ecc incl (some p) none (some parent)
          false none).orbit_angle + TAU * (dt / p) :=
  ⟨rfl, step_orbit_angle _ _ _ _ p rfl rfl rfl hp⟩

/-- Witness for C3 (amended) at eccentricity 2, period 10, one step of one
day. -/
theorem c3_amended_witness :
    (mkBody 1 1 1 2 0 (some 10) none
      (some (mkBody 1 1 0 0 0 none none none false none))
      false none).orbit_eccentricity = 2 ∧
    (step (mkBody 1 1 1 2 0 (some 10) none
        (some (mkBody 1 1 0 0 0 none none none false none)) false none)
        1 (some 0) ⟨0, 0, 0⟩).orbit_angle
      = (mkBody 1 1 1 2 0 (some 10) none
          (some (mkBody 1 1 0 0 0 none none none false none))
          false none).orbit_angle + TAU * (1 / 10) :=
  c3_amended 1 1 1 2 0 1 0 10 _ _ (by norm_num) (by norm_num)

theorem stepMany_orbit_angle (dts : List ℝ) (b : Body) (jd : Option ℝ) (pp : Vec3)
    (p : ℝ) (h1 : b.elements = none) (h2 : b.has_orbit_parent = true)
    (h3 : b.orbit_period_days = some p) (hp : p ≠ 0) :
    (stepMany b dts jd pp).orbit_angle = b.orbit_angle + TAU * (dts.sum / p) := by
  induction dts generalizing b with
  | nil => simp [stepMany]
  | cons dt dts ih =>
    have hf := step_fields b dt jd pp
    have : stepMany b (dt :: dts) jd pp = stepMany (step b dt jd pp) dts jd pp := rfl
    rw [this, ih (step b dt jd pp) (by rw [hf.1, h1]) (by rw [hf.2.1, h2])
      (by rw [hf.2.2, h3]), step_orbit_angle b dt jd pp p h1 h2 h3 hp]
    rw [List.sum_cons]
    field_simp
    ring

theorem stepMany_orbit_angle_zero (dts : List ℝ) (b : Body) (jd : Option ℝ) (pp : Vec3)
    (h1 : b.elements = none) (h3 : b.orbit_period_days = some 0) :
    (stepMany b dts jd pp).orbit_angle = b.orbit_angle := by
  induction dts generalizing b with
  | nil => rfl
  | cons dt dts ih =>
    have hf := step_fields b dt jd pp
    have : stepMany b (dt :: dts) jd pp = stepMany (step b dt jd pp) dts jd pp := rfl
    rw [this, ih (step b dt jd pp) (by rw [hf.1, h1]) (by rw [hf.2.2, h3]),
      step_orbit_angle_zero_period b dt jd pp h1 h3]

/-- C7: for a fixed-period body (no element set, parent present, period
recorded), any sequence of `step` calls whose elapsed simulated days sum to
exactly one `orbit_period_days` returns the accumulated orbit-phase angle to
its starting value modulo `2π` (here: the final angle differs from the
initial one by an integer multiple of `TAU`). -/
theorem c7_fixed_period_closed_orbit (b : Body) (dts : List ℝ) (jd : Option ℝ)
    (pp : Vec3) (p : ℝ) (h1 : b.elements = none) (h2 : b.has_orbit_parent = true)
    (h3 : b.orbit_period_days = some p) (hsum : dts.sum = p) :
    ∃ k : ℤ, (stepMany b dts jd pp).orbit_angle = b.orbit_angle + (k : ℝ) * TAU := by
  by_cases hp : p = 0
  · refine ⟨0, ?_⟩
    rw [stepMany_orbit_angle_zero dts b jd pp h1 (hp ▸ h3)]
    simp
  · refine ⟨1, ?_⟩
    rw [stepMany_orbit_angle dts b jd pp p h1 h2 h3 hp, hsum]
    rw [div_self hp]
    simp

/-- Witness for C7: a body with period 2 days stepped twice by one day each
(summing to one period) comes back to its initial phase modulo `TAU`. -/
theorem c7_fixed_period_closed_orbit_witness :
    ∃ k : ℤ,
      (stepMany (mkBody 1 1 1 0 0 (some 2) none
          (some (mkBody 1 1 0 0 0 none none none false none)) false none)
        [1, 1] none ⟨0, 0, 0⟩).orbit_angle
      = (mkBody 1 1 1 0 0 (some 2) none
          (some (mkBody 1 1 0 0 0 none none none false none))
          false none).orbit_angle + (k : ℝ) * TAU :=
  c7_fixed_period_closed_orbit _ [1, 1] none ⟨0, 0, 0⟩ 2 rfl rfl rfl (by norm_num)

/-- A triangle mesh as passed to `ursina.Mesh(vertices=…, triangles=…,
uvs=…, mode="triangle")`: the triangle list is a flat index list, three
indices per triangle. -/
structure Mesh3 where
  vertices : List Vec3
  triangles : List ℕ
  uvs : List (ℝ × ℝ)

noncomputable section

/-- `make_ring_mesh(inner_radius, outer_radius, segments)` (src/main.py lines
498-515): `segments` quads between two concentric circles, four vertices and
two triangles each (`base = 4*i` is `len(vertices)` at iteration `i`), with
radial/angular UVs.  The division `TAU * i / segments` executes only inside
the loop body, i.e. only when `0 < segments`, in which case `segments ≠ 0`;
the guard below records that a `ZeroDivisionError` (modelled `none`) is
impossible for this builder.  `range(segments)` of a non-positive Python int
is empty, modelled by `Int.toNat`. -/
def make_ring_mesh (inner_radius outer_radius : ℝ) (segments : ℤ) : Option Mesh3 :=
  if 0 < segments ∧ segments = 0 then none
  else some
    { vertices := (List.range segments.toNat).flatMap fun (i : ℕ) =>
        let a0 := TAU * (i : ℝ) / (segments : ℝ)
        let a1 := TAU * ((i : ℝ) + 1) / (segments : ℝ)
        [⟨Real.cos a0 * inner_radius, 0, Real.sin a0 * inner_radius⟩,
         ⟨Real.cos a0 * outer_radius, 0, Real.sin a0 * outer_radius⟩,
         ⟨Real.cos a1 * outer_radius, 0, Real.sin a1 * outer_radius⟩,
         ⟨Real.cos a1 * inner_radius, 0, Real.sin a1 * inner_radius⟩]
      triangles := (List.range segments.toNat).flatMap fun (i : ℕ) =>
        [4 * i, 4 * i + 1, 4 * i + 2, 4 * i, 4 * i + 2, 4 * i + 3]
      uvs := (List.range segments.toNat).flatMap fun (i : ℕ) =>
        [(0, (i : ℝ) / (segments : ℝ)), (1, (i : ℝ) / (segments : ℝ)),
         (1, ((i : ℝ) + 1) / (segments : ℝ)), (0, ((i : ℝ) + 1) / (segments : ℝ))] }

/-- The same Newton iteration as `keplerIter`, with the division modelled
fallibly: Python float division raises `ZeroDivisionError` when the
denominator `1 - e * math.cos(E)` is exactly zero (reachable when
`e * e ≥ 1`, e.g. `e = 1`, `E = 0`), modelled `none`. -/
def keplerIterTry (e M : ℝ) : ℕ → Option ℝ
  | 0 => some M
  | n + 1 =>
    (keplerIterTry e M n).bind fun E =>
      if 1 - e * Real.cos E = 0 then none
      else some (E - (E - e * Real.sin E - M) / (1 - e * Real.cos E))

/-- `make_orbit_ellipse_mesh(semi_major, eccentricity, segments)` (src/main.py
lines 518-528): `segments + 1` points of a centred ellipse in the orbital
plane, as a line-mode vertex list.  `b = a * math.sqrt(1 - e*e)` executes
before the loop (line 522), so an eccentricity with `e*e > 1` raises
`ValueError` for every segment count, modelled by the first guard; the loop
runs over `range(segments + 1)`, and when `segments = 0` its first iteration
divides `TAU * 0 / 0` and raises `ZeroDivisionError`, modelled by the
second guard. -/
def make_orbit_ellipse_mesh (semi_major eccentricity : ℝ) (segments : ℤ) :
    Option (List Vec3) :=
  if 1 - eccentricity * eccentricity < 0 then none
  else if 0 < segments + 1 ∧ segments = 0 then none
  else some ((List.range (segments + 1).toNat).map fun (i : ℕ) =>
    let t := TAU * (i : ℝ) / (segments : ℝ)
    let b := semi_major * Real.sqrt (1 - eccentricity * eccentricity)
    (⟨semi_major * Real.cos t - semi_major * eccentricity, 0, b * Real.sin t⟩ : Vec3))

/-- `make_orbit_path_from_elements(elements, jd, segments)` (src/main.py lines
530-558): the element rotation matrix is evaluated once at the epoch `jd`,
then `segments + 1` perifocal points at evenly spaced mean anomalies are
rotated into the inertial frame (with the same `Vec3(x, z, y)` swizzle as
`update_orbit_from_elements`).  `segments = 0` divides `TAU * 0 / 0` on the
first iteration (line 547) before anything else, modelled by the outer
guard.  Inside the loop body, the Newton division (line 550) runs before
`math.sqrt(1 - e*e)` in `y_prime` (line 552, raising `ValueError` for an
extrapolated `e*e > 1`); both in-loop error paths are modelled by `Option`,
and since the iterations are independent the loop is the `Option`-traversal
`mapM`, which is `none` exactly when some iteration raises. -/
def make_orbit_path_from_elements (el : Elements) (jd : ℝ) (segments : ℤ) :
    Option (List Vec3) :=
  if 0 < segments + 1 ∧ segments = 0 then none
  else (List.range (segments + 1).toNat).mapM fun (s : ℕ) =>
    let T := (jd - 2451545.0) / 36525.0
    let a := (el.a + el.a_dot * T) * AU
    let e := el.e + el.e_dot * T
    let i := radians (el.i + el.i_dot * T)
    let Omega := radians (el.Omega + el.Omega_dot * T)
    let w := radians (el.w + el.w_dot * T)
    let cos_O := Real.cos Omega
    let sin_O := Real.sin Omega
    let cos_w := Real.cos w
    let sin_w := Real.sin w
    let cos_i := Real.cos i
    let sin_i := Real.sin i
    let M := TAU * (s : ℝ) / (segments : ℝ)
    (keplerIterTry e M 6).bind fun E =>
      if 1 - e * e < 0 then none
      else
        let x_prime := a * (Real.cos E - e)
        let y_prime := a * Real.sqrt (1 - e * e) * Real.sin E
        let x := (cos_O * cos_w - sin_O * sin_w * cos_i) * x_prime
          + (-cos_O * sin_w - sin_O * cos_w * cos_i) * y_prime
        let y := (sin_O * cos_w + cos_O * sin_w * cos_i) * x_prime
          + (-sin_O * sin_w + cos_O * cos_w * cos_i) * y_prime
        let z := (sin_w * sin_i) * x_prime + (cos_w * sin_i) * y_prime
        some (⟨x, z, y⟩ : Vec3)

end

/-- With any `e` and `c` in `[-1, 1]` and `e * e < 1`, the Newton
denominator `1 - e * c` is positive. -/
theorem kepler_denom_pos (e c : ℝ) (he : e * e < 1) (hc : -1 ≤ c) (hc1 : c ≤ 1) :
    0 < 1 - e * c := by
  nlinarith [sq_nonneg (e * c - 1), sq_nonneg (e - c), sq_nonneg (e + c)]

/-- When the eccentricity satisfies `e * e < 1`, no Newton denominator
vanishes and the fallible iteration agrees with the total one. -/
theorem keplerIterTry_eq (e M : ℝ) (he : e * e < 1) :
    ∀ n, keplerIterTry e M n = some (keplerIter e M n)
  | 0 => rfl
  | n + 1 => by
    rw [keplerIterTry, keplerIterTry_eq e M he n, Option.some_bind]
    have h := kepler_denom_pos e (Real.cos (keplerIter e M n)) he
      (Real.neg_one_le_cos _) (Real.cos_le_one _)
    rw [if_neg (by linarith)]
    rfl

/-- Binding a constantly failing continuation fails. -/
theorem option_bind_const_none {α β : Type} (o : Option α) :
    (o.bind fun _ => (none : Option β)) = none := by
  cases o <;> rfl

/-- An `Option`-traversal of a list succeeds when every entry does. -/
theorem list_mapM_isSome {α β : Type} (f : α → Option β) (l : List α)
    (h : ∀ a ∈ l, (f a).isSome = true) : (l.mapM f).isSome = true := by
  rw [← List.mapM'_eq_mapM]
  induction l with
  | nil => rfl
  | cons a l ih =>
    rw [List.mapM'_cons]
    rcases Option.isSome_iff_exists.mp (h a (List.mem_cons_self a l)) with ⟨b, hb⟩
    rcases Option.isSome_iff_exists.mp
      (ih fun x hx => h x (List.mem_cons_of_mem a hx)) with ⟨bs, hbs⟩
    simp [hb, hbs]

/-- An `Option`-traversal of a list fails as soon as one entry does. -/
theorem list_mapM_eq_none {α β : Type} (f : α → Option β) (l : List α) (a : α)
    (ha : a ∈ l) (hfa : f a = none) : l.mapM f = none := by
  rw [← List.mapM'_eq_mapM]
  induction l with
  | nil => cases ha
  | cons b l ih =>
    rw [List.mapM'_cons]
    rcases List.mem_cons.mp ha with rfl | ha'
    · simp [hfa]
    · rcases h : f b with _ | v
      · simp
      · simp [h, ih ha']

/-- C4 counterexample: `make_orbit_ellipse_mesh` with the non-positive
segment count `0` raises `ZeroDivisionError` (`TAU * 0 / 0` on the first
loop iteration) instead of returning an empty or degenerate mesh, refuting
"never raises" for the mesh builders. -/
theorem c4_counterexample : make_orbit_ellipse_mesh 1 (1 / 2) 0 = none := by
  unfold make_orbit_ellipse_mesh
  rw [if_neg (by norm_num), if_pos (by norm_num)]

/-- C4 (amended): the failure policy actually implemented.
`make_ring_mesh` never raises, and returns the empty mesh for every
non-positive segment count.  `make_orbit_ellipse_mesh` raises `ValueError`
(modelled `none`) for every segment count whenever `e·e > 1` (the
`math.sqrt` runs before the loop); for `e·e ≤ 1` it returns an empty vertex
list for every negative segment count, raises `ZeroDivisionError` at
segment count exactly `0`, and never raises for any other segment count.
`make_orbit_path_from_elements` returns an empty vertex list for every
negative segment count (its `math.sqrt` sits inside the loop, which then
never runs), raises `ZeroDivisionError` at segment count `0`, never raises
for nonzero segment counts when the extrapolated eccentricity satisfies
`e·e < 1`, and raises for every non-negative segment count when `e·e > 1`.
Zero radii never raise: the ring, and the ellipse with `e·e ≤ 1`, then
produce degenerate meshes whose vertices are all the origin. -/
theorem c4_amended :
    (∀ (inner outer : ℝ) (s : ℤ), (make_ring_mesh inner outer s).isSome = true) ∧
    (∀ (inner outer : ℝ) (s : ℤ), s ≤ 0 →
      make_ring_mesh inner outer s = some ⟨[], [], []⟩) ∧
    (∀ (a e : ℝ) (s : ℤ), e * e ≤ 1 → s < 0 →
      make_orbit_ellipse_mesh a e s = some []) ∧
    (∀ (a e : ℝ), make_orbit_ellipse_mesh a e 0 = none) ∧
    (∀ (a e : ℝ) (s : ℤ), e * e ≤ 1 → s ≠ 0 →
      (make_orbit_ellipse_mesh a e s).isSome = true) ∧
    (∀ (a e : ℝ) (s : ℤ), 1 < e * e → make_orbit_ellipse_mesh a e s = none) ∧
    (∀ (el : Elements) (jd : ℝ) (s : ℤ), s < 0 →
      make_orbit_path_from_elements el jd s = some []) ∧
    (∀ (el : Elements) (jd : ℝ), make_orbit_path_from_elements el jd 0 = none) ∧
    (∀ (el : Elements) (jd : ℝ) (s : ℤ),
      (el.e + el.e_dot * ((jd - 2451545.0) / 36525.0))
        * (el.e + el.e_dot * ((jd - 2451545.0) / 36525.0)) < 1 → s ≠ 0 →
      (make_orbit_path_from_elements el jd s).isSome = true) ∧
    (∀ (el : Elements) (jd : ℝ) (s : ℤ),
      1 < (el.e + el.e_dot * ((jd - 2451545.0) / 36525.0))
        * (el.e + el.e_dot * ((jd - 2451545.0) / 36525.0)) → 0 ≤ s →
      make_orbit_path_from_elements el jd s = none) ∧
    (∀ (s : ℤ) (m : Mesh3), make_ring_mesh 0 0 s = some m →
      ∀ v ∈ m.vertices, v = (⟨0, 0, 0⟩ : Vec3)) ∧
    (∀ (e : ℝ) (s : ℤ) (l : List Vec3), e * e ≤ 1 →
      make_orbit_ellipse_mesh 0 e s = some l → ∀ v ∈ l, v = (⟨0, 0, 0⟩ : Vec3)) := by
  refine ⟨?_, ?_, ?_, ?_, ?_, ?_, ?_, ?_, ?_, ?_, ?_, ?_⟩
  · intro inner outer s
    unfold make_ring_mesh
    rw [if_neg (by omega)]
    rfl
  · intro inner outer s hs
    unfold make_ring_mesh
    rw [if_neg (by omega)]
    rw [Int.toNat_of_nonpos hs]
    rfl
  · intro a e s he hs
    unfold make_orbit_ellipse_mesh
    rw [if_neg (not_lt.mpr (by linarith)), if_neg (by omega),
      Int.toNat_of_nonpos (by omega)]
    rfl
  · intro a e
    unfold make_orbit_ellipse_mesh
    by_cases h : 1 - e * e < 0
    · rw [if_pos h]
    · rw [if_neg h, if_pos (by omega)]
  · intro a e s he hs
    unfold make_orbit_ellipse_mesh
    rw [if_neg (not_lt.mpr (by linarith)), if_neg (by omega)]
    rfl
  · intro a e s he
    unfold make_orbit_ellipse_mesh
    rw [if_pos (by linarith)]
  · intro el jd s hs
    unfold make_orbit_path_from_elements
    rw [if_neg (by omega), Int.toNat_of_nonpos (by omega)]
    rfl
  · intro el jd
    unfold make_orbit_path_from_elements
    rw [if_pos (by omega)]
  · intro el jd s he hs
    unfold make_orbit_path_from_elements
    rw [if_neg (by omega)]
    apply list_mapM_isSome
    intro i hi
    dsimp only
    rw [keplerIterTry_eq _ _ he 6]
    dsimp only [Option.bind]
    rw [if_neg (not_lt.mpr (by linarith))]
    rfl
  · intro el jd s he hs
    by_cases h0 : s = 0
    · subst h0
      unfold make_orbit_path_from_elements
      rw [if_pos (by omega)]
    · unfold make_orbit_path_from_elements
      rw [if_neg (by omega)]
      refine list_mapM_eq_none _ _ 0 ?_ ?_
      · simp only [List.mem_range]
        omega
      · dsimp only
        have hlt : 1 - (el.e + el.e_dot * ((jd - 2451545.0) / 36525.0))
            * (el.e + el.e_dot * ((jd - 2451545.0) / 36525.0)) < 0 := by linarith
        simp only [if_pos hlt]
        exact option_bind_const_none _
  · intro s m hm v hv
    unfold make_ring_mesh at hm
    rw [if_neg (by omega)] at hm
    obtain rfl := (Option.some_inj.mp hm).symm
    simp only [List.mem_flatMap, List.mem_range] at hv
    obtain ⟨i, -, hv⟩ := hv
    simp only [List.mem_cons, List.not_mem_nil, or_false] at hv
    rcases hv with rfl | rfl | rfl | rfl <;> simp
  · intro e s l he hl v hv
    unfold make_orbit_ellipse_mesh at hl
    rw [if_neg (not_lt.mpr (by linarith))] at hl
    by_cases hs : s = 0
    · rw [if_pos (by omega)] at hl
      cases hl
    rw [if_neg (by omega)] at hl
    obtain rfl := (Option.some_inj.mp hl).symm
    simp only [List.mem_map, List.mem_range] at hv
    obtain ⟨i, -, hv⟩ := hv
    rw [← hv]
    simp

/-- Witness for C4 (amended) at concrete inputs: the ring builder returns
the empty mesh at segment count −1; the ellipse builder returns an empty
vertex list at segment count −1 with `e = 1/2`, raises (returns `none`) at
segment count 0, succeeds at segment count 4, and raises for `e = 2` at
segment count 5; the element-path builder returns an empty vertex list at
segment count −2, succeeds at segment count 2 with eccentricity 0, and
raises at segment count 3 with eccentricity 2. -/
theorem c4_amended_witness :
    make_ring_mesh 1 2 (-1) = some ⟨[], [], []⟩ ∧
    make_orbit_ellipse_mesh 1 (1 / 2) (-1) = some [] ∧
    make_orbit_ellipse_mesh 3 (1 / 4) 0 = none ∧
    (make_orbit_ellipse_mesh 1 (1 / 2) 4).isSome = true ∧
    make_orbit_ellipse_mesh 1 2 5 = none ∧
    make_orbit_path_from_elements ⟨1, 0, 0, 0, 0, 0, 0, 0, 0, 0, 0, 0⟩ 2451545 (-2)
      = some [] ∧
    (make_orbit_path_from_elements ⟨1, 0, 0, 0, 0, 0, 0, 0, 0, 0, 0, 0⟩ 2451545 2).isSome
      = true ∧
    make_orbit_path_from_elements ⟨1, 0, 2, 0, 0, 0, 0, 0, 0, 0, 0, 0⟩ 2451545 3 = none :=
  ⟨c4_amended.2.1 1 2 (-1) (by norm_num),
   c4_amended.2.2.1 1 (1 / 2) (-1) (by norm_num) (by norm_num),
   c4_amended.2.2.2.1 3 (1 / 4),
   c4_amended.2.2.2.2.1 1 (1 / 2) 4 (by norm_num) (by norm_num),
   c4_amended.2.2.2.2.2.1 1 2 5 (by norm_num),
   c4_amended.2.2.2.2.2.2.1 ⟨1, 0, 0, 0, 0, 0, 0, 0, 0, 0, 0, 0⟩ 2451545 (-2) (by norm_num),
   c4_amended.2.2.2.2.2.2.2.2.1 ⟨1, 0, 0, 0, 0, 0, 0, 0, 0, 0, 0, 0⟩ 2451545 2 (by norm_num)
     (by norm_num),
   c4_amended.2.2.2.2.2.2.2.2.2.1 ⟨1, 0, 2, 0, 0, 0, 0, 0, 0, 0, 0, 0⟩ 2451545 3
     (by norm_num) (by norm_num)⟩

noncomputable section

/-- Python `int()` truncation toward zero on a float. -/
def pyIntR (r : ℝ) : ℤ := if 0 ≤ r then ⌊r⌋ else ⌈r⌉

/-- The vertex grid of `build_earth_mesh` (src/main.py lines 119-141), for an
open (found) heightmap: `pixels` is the greyscale image access
`pixels[px, py]` with size `width × height`, sampled on the inclusive
latitude-major `(lat_steps+1) × (lon_steps+1)` grid, each sample displacing
the radius by `(sample/255 - 0.5) * 2 * height_scale`.  (The early `return
None` for a missing asset file is external I/O and is not modelled.) -/
def earthVertices (pixels : ℤ → ℤ → ℕ) (width height : ℕ) (radius height_scale : ℝ)
    (lon_steps lat_steps : ℕ) : List Vec3 :=
  (List.range (lat_steps + 1)).flatMap fun (y : ℕ) =>
    (List.range (lon_steps + 1)).map fun (x : ℕ) =>
      let v : ℝ := (y : ℝ) / (lat_steps : ℝ)
      let lat := Real.pi * (v - 0.5)
      let py := pyIntR ((1 - v) * ((height : ℝ) - 1))
      let u : ℝ := (x : ℝ) / (lon_steps : ℝ)
      let lon := TAU * (u - 0.5)
      let px := pyIntR (u * ((width : ℝ) - 1))
      let height_value := (pixels px py : ℝ) / 255
      let displacement := (height_value - 0.5) * 2 * height_scale
      let r := radius + displacement
      (⟨r * Real.cos lat * Real.cos lon, r * Real.sin lat,
        r * Real.cos lat * Real.sin lon⟩ : Vec3)

/-- The per-vertex UV list of `build_earth_mesh`: one `(u, v)` sampling
fraction per vertex, in the same order as `earthVertices`. -/
def earthUVs (lon_steps lat_steps : ℕ) : List (ℝ × ℝ) :=
  (List.range (lat_steps + 1)).flatMap fun (y : ℕ) =>
    (List.range (lon_steps + 1)).map fun (x : ℕ) =>
      ((x : ℝ) / (lon_steps : ℝ), (y : ℝ) / (lat_steps : ℝ))

end

/-- The triangle index list of `build_earth_mesh` (src/main.py lines
142-146): two triangles per quad cell, `i = y*(lon_steps+1)+x`,
`i2 = i + lon_steps + 1`. -/
def earthTriangles (lon_steps lat_steps : ℕ) : List ℕ :=
  (List.range lat_steps).flatMap fun y =>
    (List.range lon_steps).flatMap fun x =>
      let i := y * (lon_steps + 1) + x
      let i2 := i + lon_steps + 1
      [i, i2, i + 1, i + 1, i2, i2 + 1]

/-- C10: for every grid with `lon_steps ≥ 1` and `lat_steps ≥ 1`,
`build_earth_mesh` emits exactly `(lon_steps+1)*(lat_steps+1)` vertices, one
UV per vertex, `2*lon_steps*lat_steps` triangles (as `6*lon_steps*lat_steps`
flat indices, three per triangle), and every emitted index is strictly less
than the vertex count, so no triangle references an out-of-range vertex. -/
theorem length_flatMap_fixed {β : Type _} (n : ℕ) (f : ℕ → List β) (m : ℕ)
    (hf : ∀ y, (f y).length = m) : ((List.range n).flatMap f).length = n * m := by
  induction n with
  | zero => simp
  | succ n ih =>
    rw [List.range_succ]
    simp only [List.flatMap_append, List.length_append, ih, List.flatMap_cons,
      List.flatMap_nil, List.append_nil, hf]
    ring

theorem c10_earth_mesh_counts (pixels : ℤ → ℤ → ℕ) (width height : ℕ)
    (radius height_scale : ℝ) (lon_steps lat_steps : ℕ)
    (hlon : 1 ≤ lon_steps) (hlat : 1 ≤ lat_steps) :
    (earthVertices pixels width height radius height_scale lon_steps lat_steps).length
      = (lon_steps + 1) * (lat_steps + 1) ∧
    (earthUVs lon_steps lat_steps).length = (lon_steps + 1) * (lat_steps + 1) ∧
    (earthTriangles lon_steps lat_steps).length = 2 * lon_steps * lat_steps * 3 ∧
    ∀ idx ∈ earthTriangles lon_steps lat_steps,
      idx < (lon_steps + 1) * (lat_steps + 1) := by
  refine ⟨?_, ?_, ?_, ?_⟩
  · unfold earthVertices
    refine (length_flatMap_fixed _ _ (lon_steps + 1) ?_).trans (by ring)
    intro y
    simp
  · unfold earthUVs
    refine (length_flatMap_fixed _ _ (lon_steps + 1) ?_).trans (by ring)
    intro y
    simp
  · unfold earthTriangles
    refine (length_flatMap_fixed _ _ (lon_steps * 6) ?_).trans (by ring)
    intro y
    refine (length_flatMap_fixed _ _ 6 ?_).trans (by ring)
    intro x
    rfl
  · intro idx hidx
    simp only [earthTriangles, List.mem_flatMap, List.mem_range] at hidx
    obtain ⟨y, hy, x, hx, hmem⟩ := hidx
    simp only [List.mem_cons, List.not_mem_nil, or_false] at hmem
    have hyl : (y + 1) * (lon_steps + 1) ≤ lat_steps * (lon_steps + 1) :=
      Nat.mul_le_mul_right _ hy
    have e1 : (y + 1) * (lon_steps + 1) = y * (lon_steps + 1) + lon_steps + 1 := by ring
    have e2 : (lon_steps + 1) * (lat_steps + 1)
        = lat_steps * (lon_steps + 1) + lon_steps + 1 := by ring
    rcases hmem with rfl | rfl | rfl | rfl | rfl | rfl <;> omega

/-- Witness for C10 at the smallest allowed grid (`lon_steps = lat_steps =
1`): 4 vertices, 4 UVs, 2 triangles (6 indices), all indices below 4. -/
theorem c10_earth_mesh_counts_witness :
    (earthVertices (fun _ _ => 0) 2 2 1 1 1 1).length = (1 + 1) * (1 + 1) ∧
    (earthUVs 1 1).length = (1 + 1) * (1 + 1) ∧
    (earthTriangles 1 1).length = 2 * 1 * 1 * 3 ∧
    ∀ idx ∈ earthTriangles 1 1, idx < (1 + 1) * (1 + 1) :=
  c10_earth_mesh_counts (fun _ _ => 0) 2 2 1 1 1 1 (by norm_num) (by norm_num)

/-- The first vertex emitted by `build_earth_mesh` on a uniform black
heightmap (`pixels ≡ 0`, `radius = 1`, `height_scale = 1/4`, a 1×1 grid):
the south-pole vertex `(0, -(3/4), 0)`, displaced inward by
`(0/255 - 0.5) * 2 * (1/4) = -1/4`. -/
theorem c8_head_vertex :
    (earthVertices (fun _ _ => 0) 2 2 1 (1 / 4) 1 1).head? = some ⟨0, -(3 / 4), 0⟩ := by
  have hrange : List.range (1 + 1) = [0, 1] := rfl
  simp only [earthVertices, hrange, List.flatMap_cons, List.flatMap_nil, List.map_cons,
    List.map_nil, List.append_nil, List.cons_append, List.head?_cons]
  have e1 : Real.pi * (((0 : ℕ) : ℝ) / ((1 : ℕ) : ℝ) - 0.5) = -(Real.pi / 2) := by
    push_cast
    ring_nf
  have e2 : TAU * (((0 : ℕ) : ℝ) / ((1 : ℕ) : ℝ) - 0.5) = -Real.pi := by
    rw [TAU]
    push_cast
    ring_nf
  rw [e1, e2]
  have hc : Real.cos (-(Real.pi / 2)) = 0 := by
    rw [Real.cos_neg, Real.cos_pi_div_two]
  have hs : Real.sin (-(Real.pi / 2)) = -1 := by
    rw [Real.sin_neg, Real.sin_pi_div_two]
  norm_num [hc, hs]

/-- C8 counterexample: with a uniform (flat) elevation image of value 0,
radius 1 and height_scale 1/4, the first emitted vertex lies at distance
3/4 ≠ 1 from the center: a uniform image does not place the vertices at
exactly `radius` (no integer greyscale value makes `c/255 − 0.5` vanish). -/
theorem c8_counterexample :
    (earthVertices (fun _ _ => 0) 2 2 1 (1 / 4) 1 1).head? = some ⟨0, -(3 / 4), 0⟩ ∧
    Vec3.length ⟨0, -(3 / 4), 0⟩ ≠ 1 := by
  refine ⟨c8_head_vertex, ?_⟩
  rw [Vec3.length, show ((0 : ℝ)) ^ 2 + (-(3 / 4)) ^ 2 + (0 : ℝ) ^ 2 = (3 / 4) ^ 2 by
    norm_num, Real.sqrt_sq (by norm_num : (0 : ℝ) ≤ 3 / 4)]
  norm_num

/-- C8 (amended): building the heightmap sphere from a uniform elevation
image of greyscale value `c` places every vertex at exactly the same
distance `radius + (c/255 − 0.5)·2·height_scale` from the center (assuming
that displaced radius is nonnegative) — equal to `radius` itself only when
the displacement term vanishes (e.g. `height_scale = 0`); no integer
greyscale value makes `c/255 − 0.5` zero. -/
theorem c8_amended (c width height : ℕ) (radius height_scale : ℝ)
    (lon_steps lat_steps : ℕ)
    (hr : 0 ≤ radius + ((c : ℝ) / 255 - 0.5) * 2 * height_scale) :
    ∀ v ∈ earthVertices (fun _ _ => c) width height radius height_scale
        lon_steps lat_steps,
      v.length = radius + ((c : ℝ) / 255 - 0.5) * 2 * height_scale := by
  intro v hv
  simp only [earthVertices, List.mem_flatMap, List.mem_map, List.mem_range] at hv
  obtain ⟨y, hy, x, hx, rfl⟩ := hv
  simp only [Vec3.length]
  have h1 := Real.sin_sq_add_cos_sq (Real.pi * ((y : ℝ) / (lat_steps : ℝ) - 0.5))
  have h2 := Real.sin_sq_add_cos_sq (TAU * ((x : ℝ) / (lon_steps : ℝ) - 0.5))
  set r : ℝ := radius + ((c : ℝ) / 255 - 0.5) * 2 * height_scale with hrdef
  set A : ℝ := Real.pi * ((y : ℝ) / (lat_steps : ℝ) - 0.5) with hA
  set B : ℝ := TAU * ((x : ℝ) / (lon_steps : ℝ) - 0.5) with hB
  rw [show (r * Real.cos A * Real.cos B) ^ 2 + (r * Real.sin A) ^ 2
      + (r * Real.cos A * Real.sin B) ^ 2 = r ^ 2 from by
    linear_combination (r ^ 2 * (Real.cos A) ^ 2) * h2 + r ^ 2 * h1]
  exact Real.sqrt_sq hr

/-- Witness for C8 (amended): on the uniform black image with radius 1 and
height_scale 1/4, the concrete emitted vertex `(0, -(3/4), 0)` has distance
exactly `3/4` from the center. -/
theorem c8_amended_witness : Vec3.length ⟨0, -(3 / 4), 0⟩ = 3 / 4 := by
  have h := c8_amended 0 2 2 1 (1 / 4) 1 1 (by norm_num) ⟨0, -(3 / 4), 0⟩
    (List.mem_of_mem_head? (Option.mem_def.mpr c8_head_vertex))
  rw [h]
  norm_num

theorem Vec3.length_mul (u : Vec3) (t : ℝ) : (u * t).length = |t| * u.length := by
  simp only [Vec3.mul_def, Vec3.length]
  rw [show (u.x * t) ^ 2 + (u.y * t) ^ 2 + (u.z * t) ^ 2
      = t ^ 2 * (u.x ^ 2 + u.y ^ 2 + u.z ^ 2) by ring]
  rw [Real.sqrt_mul (sq_nonneg t), Real.sqrt_sq_eq_abs]

noncomputable section

/-- The per-body collision test and response of `update()` (src/main.py lines
919-924): with `to_cam = next_pos - body.position`, if
`dist < body.scale_x * 0.97 + CAMERA_RADIUS` and `dist > 0`, clamp the
camera onto the sphere along `to_cam.normalized()` and zero the velocity;
otherwise leave both unchanged. -/
def collideBody (next_pos velocity bodyPos : Vec3) (bodyScale : ℝ) : Vec3 × Vec3 :=
  let to_cam := next_pos - bodyPos
  let dist := to_cam.length
  let min_dist := bodyScale * 0.97 + CAMERA_RADIUS
  if dist < min_dist ∧ dist > 0 then
    (bodyPos + to_cam.normalized * min_dist, (⟨0, 0, 0⟩ : Vec3))
  else (next_pos, velocity)

/-- The guard around the collision loop (src/main.py line 917): the body test
runs only when no focus target is set and the current speed is at least
`COLLISION_SPEED_MIN`. -/
def collisionStep (focusIsNone : Bool) (speed : ℝ) (next_pos velocity bodyPos : Vec3)
    (bodyScale : ℝ) : Vec3 × Vec3 :=
  if focusIsNone = true ∧ COLLISION_SPEED_MIN ≤ speed then
    collideBody next_pos velocity bodyPos bodyScale
  else (next_pos, velocity)

end

/-- C5: when the camera's next position penetrates a body
(`0 < d < R*0.97 + CAMERA_RADIUS`), no focus target is set and the speed is
at or above the collision threshold, the collision response places the
camera exactly on the sphere of radius `R*0.97 + CAMERA_RADIUS` around the
body's center, along the original approach direction (the corrected offset
is the original offset scaled by the positive factor `min_dist / d`), and
the camera velocity is exactly the zero vector afterwards. -/
theorem c5_collision_response (next_pos velocity bodyPos : Vec3) (bodyScale speed : ℝ)
    (hs : COLLISION_SPEED_MIN ≤ speed)
    (hd0 : 0 < (next_pos - bodyPos).length)
    (hd : (next_pos - bodyPos).length < bodyScale * 0.97 + CAMERA_RADIUS) :
    ((collisionStep true speed next_pos velocity bodyPos bodyScale).1 - bodyPos).length
        = bodyScale * 0.97 + CAMERA_RADIUS ∧
    (collisionStep true speed next_pos velocity bodyPos bodyScale).1 - bodyPos
        = (next_pos - bodyPos)
            * ((bodyScale * 0.97 + CAMERA_RADIUS) / (next_pos - bodyPos).length) ∧
    0 < (bodyScale * 0.97 + CAMERA_RADIUS) / (next_pos - bodyPos).length ∧
    (collisionStep true speed next_pos velocity bodyPos bodyScale).2 = ⟨0, 0, 0⟩ := by
  have hm : 0 < bodyScale * 0.97 + CAMERA_RADIUS := lt_trans hd0 hd
  have hstep : collisionStep true speed next_pos velocity bodyPos bodyScale
      = collideBody next_pos velocity bodyPos bodyScale := by
    unfold collisionStep
    rw [if_pos ⟨rfl, hs⟩]
  have hcoll : collideBody next_pos velocity bodyPos bodyScale
      = (bodyPos + (next_pos - bodyPos).normalized * (bodyScale * 0.97 + CAMERA_RADIUS),
         (⟨0, 0, 0⟩ : Vec3)) := by
    unfold collideBody
    rw [if_pos ⟨hd, hd0⟩]
  have hoff : (bodyPos + (next_pos - bodyPos).normalized
        * (bodyScale * 0.97 + CAMERA_RADIUS)) - bodyPos
      = (next_pos - bodyPos)
          * ((bodyScale * 0.97 + CAMERA_RADIUS) / (next_pos - bodyPos).length) := by
    ext <;>
      simp only [Vec3.add_def, Vec3.sub_def, Vec3.mul_def, Vec3.normalized] <;>
      ring
  rw [hstep, hcoll]
  refine ⟨?_, hoff, div_pos hm hd0, rfl⟩
  rw [hoff, Vec3.length_mul,
    abs_of_pos (div_pos hm hd0), div_mul_cancel₀ _ (ne_of_gt hd0)]

/-- Witness for C5: a camera whose next position is at distance 1 from a
body of visual radius 1 (so `min_dist = 1.02`), moving at speed 3 with no
focus target, is clamped to distance exactly `1.02` along the original
offset and its velocity is zeroed. -/
theorem c5_collision_response_witness :
    ((collisionStep true 3 ⟨1, 0, 0⟩ ⟨0, 0, 1⟩ ⟨0, 0, 0⟩ 1).1
        - (⟨0, 0, 0⟩ : Vec3)).length = 1 * 0.97 + CAMERA_RADIUS ∧
    (collisionStep true 3 ⟨1, 0, 0⟩ ⟨0, 0, 1⟩ ⟨0, 0, 0⟩ 1).1 - (⟨0, 0, 0⟩ : Vec3)
        = ((⟨1, 0, 0⟩ : Vec3) - (⟨0, 0, 0⟩ : Vec3))
            * ((1 * 0.97 + CAMERA_RADIUS)
              / ((⟨1, 0, 0⟩ : Vec3) - (⟨0, 0, 0⟩ : Vec3)).length) ∧
    0 < (1 * 0.97 + CAMERA_RADIUS)
          / ((⟨1, 0, 0⟩ : Vec3) - (⟨0, 0, 0⟩ : Vec3)).length ∧
    (collisionStep true 3 ⟨1, 0, 0⟩ ⟨0, 0, 1⟩ ⟨0, 0, 0⟩ 1).2 = ⟨0, 0, 0⟩ := by
  have hlen : ((⟨1, 0, 0⟩ : Vec3) - (⟨0, 0, 0⟩ : Vec3)).length = 1 := by
    rw [Vec3.sub_def, Vec3.length]
    norm_num
  exact c5_collision_response ⟨1, 0, 0⟩ ⟨0, 0, 1⟩ ⟨0, 0, 0⟩ 1 3
    (by rw [COLLISION_SPEED_MIN]; norm_num)
    (by rw [hlen]; norm_num)
    (by rw [hlen, CAMERA_RADIUS]; norm_num)

def alphaN (z : ℕ) : ℕ := (100 * z - 186721625) / 3652425
def AN (z : ℕ) : ℕ := z + 1 + alphaN z - alphaN z / 4
def BN (z : ℕ) : ℕ := AN z + 1524
def CN (z : ℕ) : ℕ := (20 * BN z - 2442) / 7305
def DN (z : ℕ) : ℕ := 1461 * CN z / 4
def EN (z : ℕ) : ℕ := 10000 * (BN z - DN z) / 306001
def dayN (z : ℕ) : ℕ := BN z - DN z - 306001 * EN z / 10000
def monthN (z : ℕ) : ℕ := if EN z < 14 then EN z - 1 else EN z - 13
def yearN (z : ℕ) : ℕ := if 2 < monthN z then CN z - 4716 else CN z - 4715

def y1N (y m : ℕ) : ℕ := if m ≤ 2 then y - 1 else y
def m1N (m : ℕ) : ℕ := if m ≤ 2 then m + 12 else m
def A2N (y m : ℕ) : ℕ := y1N y m / 100
def jdBase (y m : ℕ) : ℕ :=
  1461 * (y1N y m + 4716) / 4 + 306001 * (m1N m + 1) / 10000 + 2 + A2N y m / 4

def calCheckLeaf (z : ℕ) : Bool :=
  let alpha := (100 * z - 186721625) / 3652425
  let A := z + 1 + alpha - alpha / 4
  let B := A + 1524
  let C := (20 * B - 2442) / 7305
  let D := 1461 * C / 4
  let E := 10000 * (B - D) / 306001
  let day := B - D - 306001 * E / 10000
  let month := if E < 14 then E - 1 else E - 13
  let year := if 2 < month then C - 4716 else C - 4715
  let y1 := if month ≤ 2 then year - 1 else year
  let m1 := if month ≤ 2 then month + 12 else month
  let A2 := y1 / 100
  1461 * (y1 + 4716) / 4 + 306001 * (m1 + 1) / 10000 + 2 + A2 / 4 + day
    == z + 1524 + A2

theorem calCheckLeaf_eq (z : ℕ) :
    calCheckLeaf z
      = (jdBase (yearN z) (monthN z) + dayN z == z + 1524 + A2N (yearN z) (monthN z)) :=
  rfl

def constCertLeaf (z w : ℕ) : Bool :=
  let alpha := (100 * z - 186721625) / 3652425
  let A := z + 1 + alpha - alpha / 4
  let B := A + 1524
  let C := (20 * B - 2442) / 7305
  let D := 1461 * C / 4
  let E := 10000 * (B - D) / 306001
  let alphaW := (100 * w - 186721625) / 3652425
  let AW := w + 1 + alphaW - alphaW / 4
  let BW := AW + 1524
  let CW := (20 * BW - 2442) / 7305
  let DW := 1461 * CW / 4
  let EW := 10000 * (BW - DW) / 306001
  alpha == alphaW && (C == CW && E == EW)

theorem constCertLeaf_eq (z w : ℕ) :
    constCertLeaf z w
      = (alphaN z == alphaN w && (CN z == CN w && EN z == EN w)) :=
  rfl

def monthIdxY (i : ℕ) : ℕ := 1900 + i / 12
def monthIdxM (i : ℕ) : ℕ := 1 + i % 12
def monthStart (i : ℕ) : ℕ :=
  jdBase (monthIdxY i) (monthIdxM i) + 1 - 1524 - A2N (monthIdxY i) (monthIdxM i)

def monthOK (i : ℕ) : Bool :=
  decide (monthStart i < monthStart (i + 1)) && (calCheckLeaf (monthStart i)
    && constCertLeaf (monthStart i) (monthStart (i + 1) - 1))

def monthsOKPow (s : ℕ) : ℕ → Bool
  | 0 => if 2400 < s then true else monthOK s
  | k + 1 => monthsOKPow s k && monthsOKPow (s + 2 ^ k) k


set_option maxRecDepth 10000 in
set_option maxHeartbeats 16000000 in
theorem monthsOK_all_true : monthsOKPow 0 12 = true := by decide

theorem monthsOKPow_spec (k : ℕ) : ∀ s : ℕ, monthsOKPow s k = true →
    ∀ j < 2 ^ k, s + j ≤ 2400 → monthOK (s + j) = true := by
  induction k with
  | zero =>
    intro s h j hj hle
    interval_cases j
    unfold monthsOKPow at h
    rw [if_neg (by omega)] at h
    simpa using h
  | succ k ih =>
    intro s h j hj hle
    unfold monthsOKPow at h
    rw [Bool.and_eq_true] at h
    by_cases hcase : j < 2 ^ k
    · exact ih s h.1 j hcase hle
    · have hj2 : j - 2 ^ k < 2 ^ k := by
        have : 2 ^ (k + 1) = 2 ^ k + 2 ^ k := by ring
        omega
      have := ih (s + 2 ^ k) h.2 (j - 2 ^ k) hj2 (by omega)
      rw [show s + 2 ^ k + (j - 2 ^ k) = s + j by omega] at this
      exact this

theorem monthOK_all (i : ℕ) (hi : i ≤ 2400) : monthOK i = true := by
  have := monthsOKPow_spec 12 0 monthsOK_all_true i (by norm_num; omega) (by omega)
  simpa using this

theorem month_cover_aux (n : ℕ) : ∀ z : ℕ, monthStart 0 ≤ z → z < monthStart n →
    ∃ i < n, monthStart i ≤ z ∧ z < monthStart (i + 1) := by
  induction n with
  | zero => intro z h1 h2; omega
  | succ n ih =>
    intro z h1 h2
    by_cases hc : monthStart n ≤ z
    · exact ⟨n, by omega, hc, h2⟩
    · obtain ⟨i, hi, hmem⟩ := ih z h1 (by omega)
      exact ⟨i, by omega, hmem⟩

theorem alphaN_mono {a b : ℕ} (h : a ≤ b) : alphaN a ≤ alphaN b := by
  unfold alphaN
  apply Nat.div_le_div_right
  omega

theorem month_interior (Z0 Z1 z : ℕ) (hz0 : Z0 ≤ z) (hz1 : z ≤ Z1)
    (hα : alphaN Z0 = alphaN Z1) (hC : CN Z0 = CN Z1) (hE : EN Z0 = EN Z1) :
    yearN z = yearN Z0 ∧ monthN z = monthN Z0 ∧ dayN z = dayN Z0 + (z - Z0) := by
  have hαz : alphaN z = alphaN Z0 := by
    have h1 : alphaN z ≤ alphaN Z1 := alphaN_mono hz1
    have h2 : alphaN Z0 ≤ alphaN z := alphaN_mono hz0
    omega
  have hA : AN z = AN Z0 + (z - Z0) := by
    unfold AN
    rw [hαz]
    omega
  have hA1 : AN Z1 = AN Z0 + (Z1 - Z0) := by
    unfold AN
    rw [← hα]
    omega
  have hB : BN z = BN Z0 + (z - Z0) := by
    unfold BN
    omega
  have hB1 : BN Z1 = BN Z0 + (Z1 - Z0) := by
    unfold BN
    omega
  have hCz : CN z = CN Z0 := by
    unfold CN at hC ⊢
    omega
  have hD : DN z = DN Z0 := by
    unfold DN
    rw [hCz]
  have hD1 : DN Z1 = DN Z0 := by
    unfold DN
    rw [← hC]
  have hEz : EN z = EN Z0 := by
    have e1 : EN z = 10000 * (BN Z0 + (z - Z0) - DN Z0) / 306001 := by
      unfold EN
      rw [hD, hB]
    have e2 : EN Z1 = 10000 * (BN Z0 + (Z1 - Z0) - DN Z0) / 306001 := by
      unfold EN
      rw [hD1, hB1]
    have e0 : EN Z0 = 10000 * (BN Z0 - DN Z0) / 306001 := rfl
    omega
  have hday : dayN z = dayN Z0 + (z - Z0) := by
    unfold dayN
    rw [hEz, hD]
    have heq : EN Z0 = 10000 * (BN Z0 - DN Z0) / 306001 := rfl
    have hDB : DN Z0 ≤ BN Z0 := by
      have h1 : CN Z0 * 7305 ≤ 20 * BN Z0 - 2442 := Nat.div_mul_le_self _ _
      have h2 : 1524 ≤ BN Z0 := by unfold BN; omega
      unfold DN
      omega
    omega
  have hm : monthN z = monthN Z0 := by
    unfold monthN
    rw [hEz]
  have hy : yearN z = yearN Z0 := by
    unfold yearN
    rw [hm, hCz]
  exact ⟨hy, hm, hday⟩

theorem chkSpec_of_monthOK (i z : ℕ) (h : monthOK i = true)
    (hz0 : monthStart i ≤ z) (hz1 : z < monthStart (i + 1)) :
    jdBase (yearN z) (monthN z) + dayN z = z + 1524 + A2N (yearN z) (monthN z) := by
  unfold monthOK at h
  rw [Bool.and_eq_true, Bool.and_eq_true] at h
  obtain ⟨hmono, hleaf, hconst⟩ := h
  rw [calCheckLeaf_eq] at hleaf
  rw [constCertLeaf_eq] at hconst
  rw [Bool.and_eq_true, Bool.and_eq_true] at hconst
  obtain ⟨hα, hC, hE⟩ := hconst
  have hα := eq_of_beq hα
  have hC := eq_of_beq hC
  have hE := eq_of_beq hE
  have hleaf := eq_of_beq hleaf
  have hmono := of_decide_eq_true hmono
  have hI := month_interior (monthStart i) (monthStart (i + 1) - 1) z hz0 (by omega)
    hα hC hE
  rw [hI.1, hI.2.1, hI.2.2]
  omega

theorem chkSpec_range (z : ℕ) (h1 : 2415021 ≤ z) (h2 : z ≤ 2488070) :
    jdBase (yearN z) (monthN z) + dayN z = z + 1524 + A2N (yearN z) (monthN z) := by
  have e0 : monthStart 0 = 2415021 := by decide
  have e1 : 2488070 < monthStart 2401 := by decide
  obtain ⟨i, hi, hmem⟩ := month_cover_aux 2401 z (by omega) (by omega)
  exact chkSpec_of_monthOK i z (monthOK_all i (by omega)) hmem.1 hmem.2

/-- Python `int()` truncation toward zero on an exact float value. -/
def pyInt (q : ℚ) : ℤ := if 0 ≤ q then ⌊q⌋ else ⌈q⌉

/-- A `datetime.datetime` value (UTC). -/
structure CivilDateTime where
  year : ℤ
  month : ℤ
  day : ℤ
  hour : ℤ
  minute : ℤ
  second : ℤ
  microsecond : ℤ

/-- `julian_date(dt)` (src/main.py lines 151-166). -/
def julian_date (dt : CivilDateTime) : ℚ :=
  let hour : ℚ := (dt.hour : ℚ) + (dt.minute : ℚ) / 60 + (dt.second : ℚ) / 3600
    + (dt.microsecond : ℚ) / 3600000000
  let year : ℤ := if dt.month ≤ 2 then dt.year - 1 else dt.year
  let month : ℤ := if dt.month ≤ 2 then dt.month + 12 else dt.month
  let A : ℤ := Int.fdiv year 100
  let B : ℤ := 2 - A + Int.fdiv A 4
  let jd : ℚ := (pyInt ((365.25 : ℚ) * ((year : ℚ) + 4716)) : ℚ)
    + (pyInt ((30.6001 : ℚ) * ((month : ℚ) + 1)) : ℚ) + (dt.day : ℚ) + (B : ℚ) - 1524.5
  jd + hour / 24

/-!
`jd_to_datetime(jd)` (src/main.py lines 169-190) is embedded one local
variable at a time: each `jdD_*` function below is the value of the
correspondingly named Python local as a function of the input `jd`
(`jdD_dayq` is the fractional `day`, `jdD_day` the truncated `day_int`).
-/

/-- Local `Z = int(jd + 0.5)`. -/
def jdD_Z (jd0 : ℚ) : ℤ := pyInt (jd0 + 0.5)

/-- Local `F = jd + 0.5 - Z`. -/
def jdD_F (jd0 : ℚ) : ℚ := (jd0 + 0.5) - (jdD_Z jd0 : ℚ)

/-- Local `A` (after the Gregorian branch `Z >= 2299161`). -/
def jdD_A (jd0 : ℚ) : ℤ :=
  if jdD_Z jd0 ≥ 2299161 then
    let alpha := pyInt (((jdD_Z jd0 : ℚ) - 1867216.25) / 36524.25)
    jdD_Z jd0 + 1 + alpha - pyInt ((alpha : ℚ) / 4)
  else jdD_Z jd0

/-- Local `B = A + 1524`. -/
def jdD_B (jd0 : ℚ) : ℤ := jdD_A jd0 + 1524

/-- Local `C = int((B - 122.1) / 365.25)`. -/
def jdD_C (jd0 : ℚ) : ℤ := pyInt (((jdD_B jd0 : ℚ) - 122.1) / 365.25)

/-- Local `D = int(365.25 * C)`. -/
def jdD_D (jd0 : ℚ) : ℤ := pyInt ((365.25 : ℚ) * (jdD_C jd0 : ℚ))

/-- Local `E = int((B - D) / 30.6001)`. -/
def jdD_E (jd0 : ℚ) : ℤ := pyInt (((jdD_B jd0 : ℚ) - (jdD_D jd0 : ℚ)) / 30.6001)

/-- Local `day = B - D - int(30.6001 * E) + F` (a fraction-carrying day). -/
def jdD_dayq (jd0 : ℚ) : ℚ :=
  (jdD_B jd0 : ℚ) - (jdD_D jd0 : ℚ)
    - (pyInt ((30.6001 : ℚ) * (jdD_E jd0 : ℚ)) : ℚ) + jdD_F jd0

/-- Local `month = E - 1 if E < 14 else E - 13`. -/
def jdD_month (jd0 : ℚ) : ℤ :=
  if jdD_E jd0 < 14 then jdD_E jd0 - 1 else jdD_E jd0 - 13

/-- Local `year = C - 4716 if month > 2 else C - 4715`. -/
def jdD_year (jd0 : ℚ) : ℤ :=
  if jdD_month jd0 > 2 then jdD_C jd0 - 4716 else jdD_C jd0 - 4715

/-- Local `day_int = int(day)`. -/
def jdD_day (jd0 : ℚ) : ℤ := pyInt (jdD_dayq jd0)

/-- Local `frac = day - day_int`. -/
def jdD_frac (jd0 : ℚ) : ℚ := jdD_dayq jd0 - (jdD_day jd0 : ℚ)

/-- Local `hour = int(frac * 24)`. -/
def jdD_hour (jd0 : ℚ) : ℤ := pyInt (jdD_frac jd0 * 24)

/-- Local `minute = int((frac * 24 - hour) * 60)`. -/
def jdD_minute (jd0 : ℚ) : ℤ :=
  pyInt ((jdD_frac jd0 * 24 - (jdD_hour jd0 : ℚ)) * 60)

/-- Local `second = int((((frac * 24 - hour) * 60) - minute) * 60)`. -/
def jdD_second (jd0 : ℚ) : ℤ :=
  pyInt ((((jdD_frac jd0 * 24 - (jdD_hour jd0 : ℚ)) * 60) - (jdD_minute jd0 : ℚ)) * 60)

/-- `jd_to_datetime(jd)` (src/main.py lines 169-190), assembled from the
locals above; the Python `datetime` is built with `microsecond = 0`. -/
def jd_to_datetime (jd0 : ℚ) : CivilDateTime :=
  ⟨jdD_year jd0, jdD_month jd0, jdD_day jd0,
   jdD_hour jd0, jdD_minute jd0, jdD_second jd0, 0⟩

theorem pyInt_of_nonneg (q : ℚ) (h : 0 ≤ q) : pyInt q = ⌊q⌋ := if_pos h

theorem pyInt_natCast_div (n d : ℕ) : pyInt ((n : ℚ) / (d : ℚ)) = ((n / d : ℕ) : ℤ) := by
  rw [pyInt_of_nonneg _ (by positivity), Rat.floor_natCast_div_natCast]
  exact (Int.ofNat_div n d).symm

theorem natStageFacts (z : ℕ) :
    1524 ≤ BN z ∧ z + 1525 ≤ BN z ∧ DN z + 123 ≤ BN z ∧
    306001 * EN z / 10000 ≤ BN z - DN z ∧ 4 ≤ EN z := by
  have hANz : z + 1 ≤ AN z := by unfold AN; omega
  have hB : z + 1525 ≤ BN z := by unfold BN; omega
  have hCmul : CN z * 7305 ≤ 20 * BN z - 2442 := by
    unfold CN
    exact Nat.div_mul_le_self _ _
  have hD4 : DN z * 4 ≤ 1461 * CN z := by
    unfold DN
    exact Nat.div_mul_le_self _ _
  have hDB : DN z + 123 ≤ BN z := by omega
  have hEm : EN z * 306001 ≤ 10000 * (BN z - DN z) := by
    unfold EN
    exact Nat.div_mul_le_self _ _
  have hKB : 306001 * EN z / 10000 ≤ BN z - DN z := by omega
  have hE4 : 4 ≤ EN z := by unfold EN; omega
  exact ⟨by omega, hB, hDB, hKB, hE4⟩

theorem CN_lb (z : ℕ) (hz : 2299161 ≤ z) : 4716 + 1582 ≤ CN z := by
  have h := (natStageFacts z).2.1
  unfold CN
  omega

theorem jdD_Z_eq (z : ℕ) (F : ℚ) (hF0 : 0 ≤ F) (hF1 : F < 1) :
    jdD_Z ((z : ℚ) - 1 / 2 + F) = (z : ℤ) := by
  unfold jdD_Z
  rw [show (z : ℚ) - 1 / 2 + F + 0.5 = F + ((z : ℤ) : ℚ) by push_cast; ring_nf,
    pyInt_of_nonneg _ (by positivity),
    Int.floor_add_int, Int.floor_eq_zero_iff.mpr ⟨hF0, hF1⟩, zero_add]

theorem jdD_F_eq (z : ℕ) (F : ℚ) (hF0 : 0 ≤ F) (hF1 : F < 1) :
    jdD_F ((z : ℚ) - 1 / 2 + F) = F := by
  unfold jdD_F
  rw [jdD_Z_eq z F hF0 hF1]
  push_cast
  ring_nf

theorem jdD_A_eq (z : ℕ) (F : ℚ) (hz : 2299161 ≤ z) (hF0 : 0 ≤ F) (hF1 : F < 1) :
    jdD_A ((z : ℚ) - 1 / 2 + F) = ((AN z : ℕ) : ℤ) := by
  unfold jdD_A
  rw [jdD_Z_eq z F hF0 hF1, if_pos (show (z : ℤ) ≥ 2299161 by exact_mod_cast hz)]
  have eα : pyInt ((((z : ℤ) : ℚ) - 1867216.25) / 36524.25) = ((alphaN z : ℕ) : ℤ) := by
    rw [show (((z : ℤ) : ℚ) - 1867216.25) / 36524.25
        = ((100 * z - 186721625 : ℕ) : ℚ) / ((3652425 : ℕ) : ℚ) by
      rw [div_eq_div_iff (by norm_num) (by norm_num)]
      push_cast [Nat.cast_sub (show 186721625 ≤ 100 * z by omega)]
      ring]
    exact pyInt_natCast_div _ _
  rw [eα]
  show (z : ℤ) + 1 + ((alphaN z : ℕ) : ℤ)
      - pyInt ((((alphaN z : ℕ) : ℤ) : ℚ) / 4) = ((AN z : ℕ) : ℤ)
  have eα4 : pyInt ((((alphaN z : ℕ) : ℤ) : ℚ) / 4) = ((alphaN z / 4 : ℕ) : ℤ) := by
    rw [show (((alphaN z : ℕ) : ℤ) : ℚ) / 4 = ((alphaN z : ℕ) : ℚ) / ((4 : ℕ) : ℚ) by
      push_cast
      ring]
    exact pyInt_natCast_div _ _
  rw [eα4]
  unfold AN
  omega

theorem jdD_B_eq (z : ℕ) (F : ℚ) (hz : 2299161 ≤ z) (hF0 : 0 ≤ F) (hF1 : F < 1) :
    jdD_B ((z : ℚ) - 1 / 2 + F) = ((BN z : ℕ) : ℤ) := by
  unfold jdD_B
  rw [jdD_A_eq z F hz hF0 hF1]
  unfold BN
  omega

theorem jdD_C_eq (z : ℕ) (F : ℚ) (hz : 2299161 ≤ z) (hF0 : 0 ≤ F) (hF1 : F < 1) :
    jdD_C ((z : ℚ) - 1 / 2 + F) = ((CN z : ℕ) : ℤ) := by
  unfold jdD_C
  rw [jdD_B_eq z F hz hF0 hF1]
  have hB := (natStageFacts z).1
  rw [show ((((BN z : ℕ) : ℤ) : ℚ) - 122.1) / 365.25
      = ((20 * BN z - 2442 : ℕ) : ℚ) / ((7305 : ℕ) : ℚ) by
    rw [div_eq_div_iff (by norm_num) (by norm_num)]
    push_cast [Nat.cast_sub (show 2442 ≤ 20 * BN z by omega)]
    ring]
  exact pyInt_natCast_div _ _

theorem jdD_D_eq (z : ℕ) (F : ℚ) (hz : 2299161 ≤ z) (hF0 : 0 ≤ F) (hF1 : F < 1) :
    jdD_D ((z : ℚ) - 1 / 2 + F) = ((DN z : ℕ) : ℤ) := by
  unfold jdD_D
  rw [jdD_C_eq z F hz hF0 hF1]
  rw [show (365.25 : ℚ) * (((CN z : ℕ) : ℤ) : ℚ)
      = ((1461 * CN z : ℕ) : ℚ) / ((4 : ℕ) : ℚ) by
    rw [eq_div_iff (by norm_num)]
    push_cast
    ring]
  exact pyInt_natCast_div _ _

theorem jdD_E_eq (z : ℕ) (F : ℚ) (hz : 2299161 ≤ z) (hF0 : 0 ≤ F) (hF1 : F < 1) :
    jdD_E ((z : ℚ) - 1 / 2 + F) = ((EN z : ℕ) : ℤ) := by
  unfold jdD_E
  rw [jdD_B_eq z F hz hF0 hF1, jdD_D_eq z F hz hF0 hF1]
  have hDB := (natStageFacts z).2.2.1
  rw [show ((((BN z : ℕ) : ℤ) : ℚ) - (((DN z : ℕ) : ℤ) : ℚ)) / 30.6001
      = ((10000 * (BN z - DN z) : ℕ) : ℚ) / ((306001 : ℕ) : ℚ) by
    rw [div_eq_div_iff (by norm_num) (by norm_num)]
    push_cast [Nat.cast_sub (show DN z ≤ BN z by omega)]
    ring]
  exact pyInt_natCast_div _ _

theorem jdD_dayq_eq (z : ℕ) (F : ℚ) (hz : 2299161 ≤ z) (hF0 : 0 ≤ F) (hF1 : F < 1) :
    jdD_dayq ((z : ℚ) - 1 / 2 + F) = ((dayN z : ℕ) : ℚ) + F := by
  unfold jdD_dayq
  rw [jdD_B_eq z F hz hF0 hF1, jdD_D_eq z F hz hF0 hF1, jdD_E_eq z F hz hF0 hF1,
    jdD_F_eq z F hF0 hF1]
  have hDB := (natStageFacts z).2.2.1
  have hKB := (natStageFacts z).2.2.2.1
  rw [show (30.6001 : ℚ) * (((EN z : ℕ) : ℤ) : ℚ)
      = ((306001 * EN z : ℕ) : ℚ) / ((10000 : ℕ) : ℚ) by
    rw [eq_div_iff (by norm_num)]
    push_cast
    ring]
  rw [pyInt_natCast_div]
  simp only [Int.cast_natCast]
  have e1 : ((dayN z : ℕ) : ℚ) = ((BN z : ℕ) : ℚ) - ((DN z : ℕ) : ℚ)
      - ((306001 * EN z / 10000 : ℕ) : ℚ) := by
    unfold dayN
    rw [Nat.cast_sub hKB, Nat.cast_sub (show DN z ≤ BN z by omega)]
  rw [e1]

theorem jdD_month_eq (z : ℕ) (F : ℚ) (hz : 2299161 ≤ z) (hF0 : 0 ≤ F) (hF1 : F < 1) :
    jdD_month ((z : ℚ) - 1 / 2 + F) = ((monthN z : ℕ) : ℤ) := by
  unfold jdD_month
  rw [jdD_E_eq z F hz hF0 hF1]
  have hE4 := (natStageFacts z).2.2.2.2
  unfold monthN
  by_cases h : EN z < 14
  · rw [if_pos (by exact_mod_cast h), if_pos h]
    omega
  · rw [if_neg (by exact_mod_cast h), if_neg h]
    omega

theorem jdD_year_eq (z : ℕ) (F : ℚ) (hz : 2299161 ≤ z) (hF0 : 0 ≤ F) (hF1 : F < 1) :
    jdD_year ((z : ℚ) - 1 / 2 + F) = ((yearN z : ℕ) : ℤ) := by
  unfold jdD_year
  rw [jdD_month_eq z F hz hF0 hF1, jdD_C_eq z F hz hF0 hF1]
  have hC := CN_lb z hz
  unfold yearN
  by_cases h : 2 < monthN z
  · rw [if_pos (by exact_mod_cast h), if_pos h]
    omega
  · rw [if_neg (by exact_mod_cast h), if_neg h]
    omega

theorem jdD_day_eq (z : ℕ) (F : ℚ) (hz : 2299161 ≤ z) (hF0 : 0 ≤ F) (hF1 : F < 1) :
    jdD_day ((z : ℚ) - 1 / 2 + F) = ((dayN z : ℕ) : ℤ) := by
  unfold jdD_day
  rw [jdD_dayq_eq z F hz hF0 hF1]
  rw [pyInt_of_nonneg _ (by positivity),
    show ((dayN z : ℕ) : ℚ) + F = F + (((dayN z : ℕ) : ℤ) : ℚ) by push_cast; ring,
    Int.floor_add_int, Int.floor_eq_zero_iff.mpr ⟨hF0, hF1⟩, zero_add]

theorem jdD_frac_eq (z : ℕ) (F : ℚ) (hz : 2299161 ≤ z) (hF0 : 0 ≤ F) (hF1 : F < 1) :
    jdD_frac ((z : ℚ) - 1 / 2 + F) = F := by
  unfold jdD_frac
  rw [jdD_dayq_eq z F hz hF0 hF1, jdD_day_eq z F hz hF0 hF1]
  push_cast
  ring

theorem jdD_hour_eq (z : ℕ) (F : ℚ) (hz : 2299161 ≤ z) (hF0 : 0 ≤ F) (hF1 : F < 1) :
    jdD_hour ((z : ℚ) - 1 / 2 + F) = ⌊F * 24⌋ := by
  unfold jdD_hour
  rw [jdD_frac_eq z F hz hF0 hF1]
  exact pyInt_of_nonneg _ (by positivity)

theorem jdD_minute_eq (z : ℕ) (F : ℚ) (hz : 2299161 ≤ z) (hF0 : 0 ≤ F) (hF1 : F < 1) :
    jdD_minute ((z : ℚ) - 1 / 2 + F) = ⌊F * 1440⌋ - 60 * ⌊F * 24⌋ := by
  unfold jdD_minute
  rw [jdD_frac_eq z F hz hF0 hF1, jdD_hour_eq z F hz hF0 hF1]
  have h24 : ((⌊F * 24⌋ : ℤ) : ℚ) ≤ F * 24 := Int.floor_le _
  rw [show (F * 24 - ((⌊F * 24⌋ : ℤ) : ℚ)) * 60
      = F * 1440 - ((60 * ⌊F * 24⌋ : ℤ) : ℚ) by push_cast; ring]
  rw [pyInt_of_nonneg _ (by push_cast; linarith), Int.floor_sub_int]

theorem jdD_second_eq (z : ℕ) (F : ℚ) (hz : 2299161 ≤ z) (hF0 : 0 ≤ F) (hF1 : F < 1) :
    jdD_second ((z : ℚ) - 1 / 2 + F) = ⌊F * 86400⌋ - 60 * ⌊F * 1440⌋ := by
  unfold jdD_second
  rw [jdD_frac_eq z F hz hF0 hF1, jdD_hour_eq z F hz hF0 hF1,
    jdD_minute_eq z F hz hF0 hF1]
  have h1440 : ((⌊F * 1440⌋ : ℤ) : ℚ) ≤ F * 1440 := Int.floor_le _
  rw [show ((F * 24 - ((⌊F * 24⌋ : ℤ) : ℚ)) * 60
      - ((⌊F * 1440⌋ - 60 * ⌊F * 24⌋ : ℤ) : ℚ)) * 60
      = F * 86400 - ((60 * ⌊F * 1440⌋ : ℤ) : ℚ) by push_cast; ring]
  rw [pyInt_of_nonneg _ (by push_cast; linarith), Int.floor_sub_int]

theorem fdiv_cast_100 (n : ℕ) : Int.fdiv ((n : ℕ) : ℤ) 100 = ((n / 100 : ℕ) : ℤ) := by
  rw [Int.fdiv_eq_tdiv (by positivity) (by norm_num),
    show (100 : ℤ) = ((100 : ℕ) : ℤ) from rfl]
  exact (Int.ofNat_tdiv n 100).symm

theorem fdiv_cast_4 (n : ℕ) : Int.fdiv ((n : ℕ) : ℤ) 4 = ((n / 4 : ℕ) : ℤ) := by
  rw [Int.fdiv_eq_tdiv (by positivity) (by norm_num),
    show (4 : ℤ) = ((4 : ℕ) : ℤ) from rfl]
  exact (Int.ofNat_tdiv n 4).symm

theorem julian_date_eq (y m d : ℕ) (hh hmi hs : ℤ) (hy1 : 1 ≤ y) :
    julian_date ⟨(y : ℤ), (m : ℤ), (d : ℤ), hh, hmi, hs, 0⟩
      = ((jdBase y m : ℕ) : ℚ) + (d : ℚ) - ((A2N y m : ℕ) : ℚ) - 1524.5
        + ((3600 * hh + 60 * hmi + hs : ℤ) : ℚ) / 86400 := by
  simp only [julian_date]
  have e_y1 : (if ((m : ℕ) : ℤ) ≤ 2 then ((y : ℕ) : ℤ) - 1 else ((y : ℕ) : ℤ))
      = ((y1N y m : ℕ) : ℤ) := by
    unfold y1N
    by_cases h : m ≤ 2
    · rw [if_pos (by exact_mod_cast h), if_pos h]
      omega
    · rw [if_neg (by exact_mod_cast h), if_neg h]
  rw [e_y1]
  have e_m1 : (if ((m : ℕ) : ℤ) ≤ 2 then ((m : ℕ) : ℤ) + 12 else ((m : ℕ) : ℤ))
      = ((m1N m : ℕ) : ℤ) := by
    unfold m1N
    by_cases h : m ≤ 2
    · rw [if_pos (by exact_mod_cast h), if_pos h]
      omega
    · rw [if_neg (by exact_mod_cast h), if_neg h]
  rw [e_m1]
  rw [show Int.fdiv ((y1N y m : ℕ) : ℤ) 100 = ((A2N y m : ℕ) : ℤ) from fdiv_cast_100 _]
  rw [fdiv_cast_4 (A2N y m)]
  have eT1 : pyInt ((365.25 : ℚ) * ((((y1N y m : ℕ) : ℤ) : ℚ) + 4716))
      = ((1461 * (y1N y m + 4716) / 4 : ℕ) : ℤ) := by
    rw [show (365.25 : ℚ) * ((((y1N y m : ℕ) : ℤ) : ℚ) + 4716)
        = ((1461 * (y1N y m + 4716) : ℕ) : ℚ) / ((4 : ℕ) : ℚ) by
      rw [eq_div_iff (by norm_num)]
      push_cast
      ring]
    exact pyInt_natCast_div _ _
  rw [eT1]
  have eT2 : pyInt ((30.6001 : ℚ) * ((((m1N m : ℕ) : ℤ) : ℚ) + 1))
      = ((306001 * (m1N m + 1) / 10000 : ℕ) : ℤ) := by
    rw [show (30.6001 : ℚ) * ((((m1N m : ℕ) : ℤ) : ℚ) + 1)
        = ((306001 * (m1N m + 1) : ℕ) : ℚ) / ((10000 : ℕ) : ℚ) by
      rw [eq_div_iff (by norm_num)]
      push_cast
      ring]
    exact pyInt_natCast_div _ _
  rw [eT2]
  unfold jdBase
  set T1 := 1461 * (y1N y m + 4716) / 4 with hT1
  set T2 := 306001 * (m1N m + 1) / 10000 with hT2
  set A24 := A2N y m / 4 with hA24
  push_cast
  ring

theorem jd_to_datetime_eq (z : ℕ) (F : ℚ) (hz : 2299161 ≤ z) (hF0 : 0 ≤ F)
    (hF1 : F < 1) :
    jd_to_datetime ((z : ℚ) - 1 / 2 + F)
      = ⟨((yearN z : ℕ) : ℤ), ((monthN z : ℕ) : ℤ), ((dayN z : ℕ) : ℤ),
         ⌊F * 24⌋, ⌊F * 1440⌋ - 60 * ⌊F * 24⌋, ⌊F * 86400⌋ - 60 * ⌊F * 1440⌋, 0⟩ := by
  unfold jd_to_datetime
  rw [jdD_year_eq z F hz hF0 hF1, jdD_month_eq z F hz hF0 hF1, jdD_day_eq z F hz hF0 hF1,
    jdD_hour_eq z F hz hF0 hF1, jdD_minute_eq z F hz hF0 hF1, jdD_second_eq z F hz hF0 hF1]

theorem yearN_pos (z : ℕ) (hz : 2299161 ≤ z) : 1 ≤ yearN z := by
  have := CN_lb z hz
  unfold yearN
  split <;> omega

/-- C6 (amended): for every Julian Date in the supported display range
(1900-01-01 to 2100-01-01), the civil round-trip
`julian_date (jd_to_datetime jd)` reproduces `jd` to within `1/86400` days
(strictly less than one second, from below): `jd_to_datetime` truncates the
fractional second, so the round-trip never exceeds `jd` and loses less than
one second.  The `1×10⁻⁵`-day bound of the original claim (≈0.864 s) is
slightly too tight. -/
theorem c6_amended (jd : ℚ) (h1 : 2415020.5 ≤ jd) (h2 : jd ≤ 2488069.5) :
    jd - 1 / 86400 < julian_date (jd_to_datetime jd) ∧
    julian_date (jd_to_datetime jd) ≤ jd := by
  have hzfl : (2415021 : ℤ) ≤ ⌊jd + 1 / 2⌋ := by
    rw [Int.le_floor]
    push_cast
    linarith
  have hzfl2 : ⌊jd + 1 / 2⌋ ≤ 2488070 := by
    have h := le_trans (Int.floor_le (jd + 1 / 2)) (show jd + 1 / 2 ≤ 2488070 by linarith)
    exact_mod_cast h
  set z : ℕ := (⌊jd + 1 / 2⌋).toNat with hzdef
  have hzc : (z : ℤ) = ⌊jd + 1 / 2⌋ := Int.toNat_of_nonneg (by omega)
  have hz1 : 2415021 ≤ z := by omega
  have hz2 : z ≤ 2488070 := by omega
  set F : ℚ := Int.fract (jd + 1 / 2) with hFdef
  have hF0 : 0 ≤ F := Int.fract_nonneg _
  have hF1 : F < 1 := Int.fract_lt_one _
  have hjd : jd = ((z : ℕ) : ℚ) - 1 / 2 + F := by
    rw [hFdef, Int.fract]
    rw [show (((z : ℕ) : ℚ)) = ((⌊jd + 1 / 2⌋ : ℤ) : ℚ) by exact_mod_cast hzc]
    ring
  rw [hjd]
  rw [jd_to_datetime_eq z F (by omega) hF0 hF1]
  rw [julian_date_eq (yearN z) (monthN z) (dayN z) _ _ _ (yearN_pos z (by omega))]
  have etime : (3600 * ⌊F * 24⌋ + 60 * (⌊F * 1440⌋ - 60 * ⌊F * 24⌋)
      + (⌊F * 86400⌋ - 60 * ⌊F * 1440⌋) : ℤ) = ⌊F * 86400⌋ := by ring
  rw [etime]
  have hspec := chkSpec_range z hz1 hz2
  have hcast : ((jdBase (yearN z) (monthN z) : ℕ) : ℚ) + ((dayN z : ℕ) : ℚ)
      = ((z : ℕ) : ℚ) + 1524 + ((A2N (yearN z) (monthN z) : ℕ) : ℚ) := by
    exact_mod_cast hspec
  have hb1 : ((⌊F * 86400⌋ : ℤ) : ℚ) ≤ F * 86400 := Int.floor_le _
  have hb2 : F * 86400 < ((⌊F * 86400⌋ : ℤ) : ℚ) + 1 := Int.lt_floor_add_one _
  constructor
  · linarith
  · linarith

/-- C6 counterexample: at `jd = 2415021 + 19/1728000` (1900-01-01
12:00:00.95 UTC), the round-trip returns exactly `2415021` (the 0.95
fractional second is truncated), an error of `19/1728000 ≈ 1.0995×10⁻⁵`
days, which is not within the claimed `1×10⁻⁵` days. -/
theorem c6_counterexample :
    julian_date (jd_to_datetime (2415021 + 19 / 1728000)) = 2415021 ∧
    ¬ |(2415021 + 19 / 1728000 : ℚ)
        - julian_date (jd_to_datetime (2415021 + 19 / 1728000))| < 1 / 100000 := by
  have hinput : (2415021 + 19 / 1728000 : ℚ)
      = ((2415021 : ℕ) : ℚ) - 1 / 2 + (1 / 2 + 19 / 1728000) := by norm_num
  have f24 : ⌊(1 / 2 + 19 / 1728000 : ℚ) * 24⌋ = 12 := by
    rw [Int.floor_eq_iff]
    constructor <;> norm_num
  have f1440 : ⌊(1 / 2 + 19 / 1728000 : ℚ) * 1440⌋ = 720 := by
    rw [Int.floor_eq_iff]
    constructor <;> norm_num
  have f86400 : ⌊(1 / 2 + 19 / 1728000 : ℚ) * 86400⌋ = 43200 := by
    rw [Int.floor_eq_iff]
    constructor <;> norm_num
  have hval : julian_date (jd_to_datetime (2415021 + 19 / 1728000)) = 2415021 := by
    rw [hinput,
      jd_to_datetime_eq 2415021 (1 / 2 + 19 / 1728000) (by norm_num) (by norm_num)
        (by norm_num),
      julian_date_eq (yearN 2415021) (monthN 2415021) (dayN 2415021) _ _ _
        (yearN_pos 2415021 (by norm_num)),
      f24, f1440, f86400]
    have hspec := chkSpec_range 2415021 (by norm_num) (by norm_num)
    have hcast : ((jdBase (yearN 2415021) (monthN 2415021) : ℕ) : ℚ)
        + ((dayN 2415021 : ℕ) : ℚ)
        = ((2415021 : ℕ) : ℚ) + 1524
          + ((A2N (yearN 2415021) (monthN 2415021) : ℕ) : ℚ) := by
      exact_mod_cast hspec
    push_cast at hcast ⊢
    linarith
  refine ⟨hval, ?_⟩
  rw [hval, show (2415021 + 19 / 1728000 : ℚ) - 2415021 = 19 / 1728000 by ring,
    abs_of_nonneg (by norm_num : (0 : ℚ) ≤ 19 / 1728000)]
  norm_num
/-- Witness for C6 (amended) at the J2000.0 epoch `jd = 2451545`. -/
theorem c6_amended_witness :
    (2451545 : ℚ) - 1 / 86400 < julian_date (jd_to_datetime 2451545) ∧
    julian_date (jd_to_datetime 2451545) ≤ 2451545 :=
  c6_amended 2451545 (by norm_num) (by norm_num)
